import Mathlib

/-!
Shallow embedding of the `pambox` speech-experiment core, for checking the
natural-language specification against the code.

Sources embedded here:
  * `pambox/general.py`: `rms` (as its square, which is rational),
    `setdbspl`, `int2srt`.
  * `pambox/speech/experiment.py`: `Experiment.append_results` and the
    adaptive staircase `AdaptiveExperiment.run` (the per-iteration state
    update, the `while` loop, the SRT extraction, and the per-condition
    loop over the cross product of targets, distortion parameters and
    models).

Modelling conventions:
  * Python floats are modelled as `ℚ` (the staircase and `int2srt` only
    add, subtract, multiply, divide and compare, so exact rationals track
    the float computation's structure); numpy's non-finite float results
    (dividing by a zero RMS) are modelled explicitly by `NpVal`.
  * Signals are a type parameter `σ`: the staircase treats target, mixture
    and masker as opaque values that flow through `preprocessing` and
    `model.predict` (both external collaborators of the staircase), so the
    embedding passes those two functions in as parameters.
  * Python exceptions are `Except PyErr`; numpy's array truth-value
    semantics (`if not idx:` on an `ndarray`) are embedded case by case:
    an empty array is falsy, a one-element array has the truth value of
    its element, and a larger array raises `ValueError`.
  * The `while` loop of `AdaptiveExperiment.run` is embedded with a fuel
    parameter: `none` means the loop did not terminate within `fuel`
    iterations, `some s` is the state at normal exit.
-/

/-- Python exceptions raised by the embedded `pambox.general` code. -/
inductive PyErr where
  /-- `ValueError('Inputs of different lenghts.')` from `int2srt`. -/
  | valueErrorShape
  /-- `ValueError: The truth value of an array with more than one element
  is ambiguous`, raised by `not idx` when `idx` has two or more
  elements. -/
  | valueErrorAmbiguous
  /-- `IndexError` from `y[0]` on an empty array. -/
  | indexError
deriving DecidableEq

/-! ## `pambox/general.py`: `rms` and `setdbspl` -/

/-- The square of `rms(x)` (with `ac=False`, the default used by
`Experiment.adjust_levels`): `rms(x) = norm(x / sqrt(len(x)))`, so its
square is `(sum of squares) / len(x)`, a rational.  `rms(x) = 0` iff
`rmsSq x = 0`.  For the empty signal `ℚ` division gives `0/0 = 0`. -/
def rmsSq (x : List ℚ) : ℚ :=
  ((x.map fun v => v * v).sum) / x.length

/-- One element of the numpy array returned by `setdbspl`.  `finite xi r l`
stands for the real number `xi / sqrt r * 10 ^ ((l - 100) / 20)` (the data
`xi`, `r = rmsSq x` and the level `l` determine it); the non-finite IEEE
results of dividing by a zero RMS are `nan` (for a zero sample, `0/0`) and
`inf` (for a nonzero sample, `c/0`). -/
inductive NpVal where
  | nan
  | inf
  | finite (xi : ℚ) (rmsSqVal : ℚ) (lvl : ℚ)
deriving DecidableEq

/-- Whether a `setdbspl` output element is a finite float. -/
def NpVal.isFinite : NpVal → Bool
  | NpVal.finite _ _ _ => true
  | _ => false

/-- `setdbspl(x, lvl)` from `pambox/general.py` (with the default
`ac=False`, `offset=100.0`): `return (x.T / rms(x) * 10.**((lvl -
offset)/20.)).T`.  numpy float division by a zero RMS emits a
`RuntimeWarning` and produces non-finite values; it never raises, so the
embedding always returns `Except.ok`. -/
def setdbspl (x : List ℚ) (lvl : ℚ) : Except PyErr (List NpVal) :=
  Except.ok (x.map fun xi =>
    if rmsSq x = 0 then (if xi = 0 then NpVal.nan else NpVal.inf)
    else NpVal.finite xi (rmsSq x) lvl)

/-! ## `pambox/general.py`: `int2srt` -/

/-- The indices `np.nonzero(np.diff(y >= srt))[0]`: all `i` with
`(y[i] >= srt) != (y[i+1] >= srt)`. -/
def crossIdx (y : List ℚ) (srt : ℚ) : List Nat :=
  (List.range (y.length - 1)).filter fun i =>
    decide (srt ≤ y.getD i 0) ≠ decide (srt ≤ y.getD (i + 1) 0)

/-- The linear interpolation `x[i] + (srt - y[i]) * (x[i+1] - x[i]) /
(y[i+1] - y[i])` of `int2srt` at crossing index `i`. -/
def interp (x y : List ℚ) (srt : ℚ) (i : Nat) : ℚ :=
  x.getD i 0 + (srt - y.getD i 0) * (x.getD (i + 1) 0 - x.getD i 0)
    / (y.getD (i + 1) 0 - y.getD i 0)

/-- The value returned by `int2srt`: the scalar `x[0]` (from the
`y[0] == srt` early return), the ndarray of interpolated crossings (always
of length one, since two or more crossing indices raise before this
point), or Python's `None`. -/
inductive SrtRet where
  | scalar (q : ℚ)
  | arr (l : List ℚ)
  | noCrossing
deriving DecidableEq

/-- `int2srt(x, y, srt)` from `pambox/general.py`.

Control flow of the source, line by line: raise `ValueError` when the
shapes differ; `idx = np.nonzero(np.diff(y >= srt))[0]`; then
`if not idx and y[0] == srt: return x[0]` — `not idx` on the ndarray `idx`
is `True` when `idx` is empty, is `not bool(idx[0])` when `idx` has one
element, and raises `ValueError` (ambiguous truth value) otherwise, and
`y[0]` raises `IndexError` when `y` is empty; finally interpolate when
`len(idx) >= 1`, else return `None`. -/
def int2srt (x y : List ℚ) (srt : ℚ) : Except PyErr SrtRet :=
  if x.length ≠ y.length then Except.error PyErr.valueErrorShape
  else
    match crossIdx y srt with
    | [] =>
      match y with
      | [] => Except.error PyErr.indexError
      | y0 :: _ =>
        if y0 = srt then Except.ok (SrtRet.scalar (x.getD 0 0))
        else Except.ok SrtRet.noCrossing
    | [i] =>
      if i = 0 then
        match y with
        | [] => Except.error PyErr.indexError
        | y0 :: _ =>
          if y0 = srt then Except.ok (SrtRet.scalar (x.getD 0 0))
          else Except.ok (SrtRet.arr [interp x y srt i])
      else Except.ok (SrtRet.arr [interp x y srt i])
    | _ => Except.error PyErr.valueErrorAmbiguous

deriving instance DecidableEq for Except

/-! ## `pambox/speech/experiment.py`: the adaptive staircase -/

/-- The dictionary returned by an intelligibility model's `predict`: the
staircase and `append_results` only use its `'p'` entry, a mapping from
output names to values (`res['p']`). -/
structure ModelRes where
  p : List (String × ℚ)
deriving DecidableEq

/-- The mutable state of one staircase run of `AdaptiveExperiment.run`
(lines 743-749 initialize it): the loop counters, the current SNR, the
direction sign, the step-size index, the `(snr, pred)` history `all_res`,
and the `target`/`masker`/`res` variables that the loop body rebinds. -/
structure SCState (σ : Type) where
  testReversals : Nat
  totalReversals : Nat
  snr : ℚ
  lastReversalSign : Int
  iStep : Nat
  allRes : List (ℚ × ℚ)
  target : σ
  masker : σ
  lastRes : ModelRes
deriving DecidableEq

/-- The prediction read in one staircase iteration:
`res = self.prediction(model, *self.preprocessing(target, masker, snr,
params)); pred = res['p'][pred_key]`.  The dictionary lookup assumes the
key is present (a missing key would raise `KeyError` in Python; it is
modelled as `0`, a case no claim exercises). -/
def scPred {σ : Type} (pre : σ → σ → ℚ → σ × σ × σ)
    (predict : σ → σ → σ → ModelRes) (predKey : String) (s : SCState σ) : ℚ :=
  match pre s.target s.masker s.snr with
  | (t, mix, m) => ((predict t mix m).p.lookup predKey).getD 0

/-- One iteration of the `while` loop of `AdaptiveExperiment.run`
(lines 752-787), as a state update.  Faithful details:
  * `target, mix, masker = self.preprocessing(target, masker, snr,
    params)` rebinds the loop's `target` and `masker` to the preprocessed
    outputs, so they are stored back into the state and fed to the next
    iteration's preprocessing;
  * `all_res.append((snr, pred))` records the pre-update SNR;
  * on `pred >= threshold` the SNR decreases by the current step size and
    a downward direction flip advances `i_step` via
    `min(i_step + 1, len(step_sizes) - 1)`;
  * on `pred < threshold` the SNR increases and an upward direction flip
    changes the sign (and possibly counts a test reversal) but leaves
    `i_step` unchanged;
  * `test_reversals` increments exactly when a flip happens at
    `i_step == len(step_sizes) - 1`;
  * `total_reversals += 1` runs at the bottom of the loop body, on every
    iteration.
`step_sizes[i_step]` is embedded as `getD` with default `0`; for a
nonempty schedule `i_step` stays below the length, so the default is never
read (Python would raise `IndexError` on an empty schedule). -/
def scStep {σ : Type} (pre : σ → σ → ℚ → σ × σ × σ)
    (predict : σ → σ → σ → ModelRes) (predKey : String) (threshold : ℚ)
    (stepSizes : List ℚ) (s : SCState σ) : SCState σ :=
  match pre s.target s.masker s.snr with
  | (t, mix, m) =>
    let res := predict t mix m
    let pred := (res.p.lookup predKey).getD 0
    let allRes := s.allRes ++ [(s.snr, pred)]
    let step := stepSizes.getD s.iStep 0
    if threshold ≤ pred then
      let snr := s.snr - step
      if 0 < s.lastReversalSign then
        let iStep := min (s.iStep + 1) (stepSizes.length - 1)
        let testReversals :=
          if iStep = stepSizes.length - 1 then s.testReversals + 1
          else s.testReversals
        ⟨testReversals, s.totalReversals + 1, snr, -1, iStep, allRes, t, m, res⟩
      else
        ⟨s.testReversals, s.totalReversals + 1, snr, s.lastReversalSign,
          s.iStep, allRes, t, m, res⟩
    else
      let snr := s.snr + step
      if s.lastReversalSign < 0 then
        let testReversals :=
          if s.iStep = stepSizes.length - 1 then s.testReversals + 1
          else s.testReversals
        ⟨testReversals, s.totalReversals + 1, snr, 1, s.iStep, allRes, t, m, res⟩
      else
        ⟨s.testReversals, s.totalReversals + 1, snr, s.lastReversalSign,
          s.iStep, allRes, t, m, res⟩

/-- The `while test_reversals <= self.n_test_reversals:` loop of
`AdaptiveExperiment.run`, with a fuel bound: `none` when the loop does not
exit within `fuel` iterations, `some s` the state at normal exit. -/
def scRun {σ : Type} (fuel : Nat) (pre : σ → σ → ℚ → σ × σ × σ)
    (predict : σ → σ → σ → ModelRes) (predKey : String) (threshold : ℚ)
    (stepSizes : List ℚ) (nTestReversals : Nat) (s : SCState σ) :
    Option (SCState σ) :=
  match fuel with
  | 0 => none
  | Nat.succ f =>
    if s.testReversals ≤ nTestReversals then
      scRun f pre predict predKey threshold stepSizes nTestReversals
        (scStep pre predict predKey threshold stepSizes s)
    else some s

/-- The staircase state as initialized by lines 743-749 of
`AdaptiveExperiment.run` (`test_reversals = 0`, `total_reversals = 0`,
`snr = self.start_snr`, `last_reversal_sign = -1`, `i_step = 0`,
`all_res = []`); `lastRes` holds an empty placeholder, rewritten on the
first iteration (the loop always runs at least once since
`0 <= n_test_reversals`). -/
def scInit {σ : Type} (target masker : σ) (startSnr : ℚ) : SCState σ :=
  ⟨0, 0, startSnr, -1, 0, [], target, masker, ⟨[]⟩⟩

/-- Python's tail slice `l[-n:]`: the last `n` elements for `n >= 1`, but
the WHOLE list for `n = 0` (since `-0 == 0`, so `l[-0:] = l[0:] = l`). -/
def pyTailSlice {α : Type} (n : Nat) (l : List α) : List α :=
  if n = 0 then l else l.drop (l.length - n)

/-- The genuinely-last `n` elements of a list (empty when `n = 0`). -/
def lastN {α : Type} (n : Nat) (l : List α) : List α :=
  l.drop (l.length - n)

/-- `np.mean` of a list of rationals (`ℚ` division makes the empty mean
`0/0 = 0`; `np.mean` of an empty array is NaN, a case reachable only
through empty history, which a terminated staircase never produces). -/
def listMean (l : List ℚ) : ℚ := l.sum / l.length

/-- Line 789 of `AdaptiveExperiment.run`:
`srt = np.mean([each[0] for each in all_res[-self.n_test_reversals:]])`. -/
def scSrt (nTestReversals : Nat) {σ : Type} (s : SCState σ) : ℚ :=
  listMean ((pyTailSlice nTestReversals s.allRes).map Prod.fst)

/-! ## `pambox/speech/experiment.py`: result rows and `append_results` -/

/-- The `params` argument of `append_results` and `preprocessing`: Python
`None`, a dictionary of named distortion parameters, or a tuple/list of
positional ones. -/
inductive Params where
  | noParams
  | dict (kvs : List (String × ℚ))
  | tup (vs : List ℚ)
deriving DecidableEq

/-- A cell value of a result row. -/
inductive PVal where
  | num (q : ℚ)
  | natVal (n : Nat)
  | str (s : String)
  | fullPred (p : List (String × ℚ))
  | par (p : Params)
deriving DecidableEq

/-- One result row: the Python dict `d` that `append_results` builds and
appends to the DataFrame, as an association list of column name and
value. -/
abbrev ResultRow : Type := List (String × PVal)

/-- Whether a result row has a column of the given name. -/
def rowHasKey (r : ResultRow) (k : String) : Bool :=
  r.any fun kv => kv.fst = k

/-- `Experiment.append_results(df, res, model, snr, i_target, params,
**kwargs)` (lines 159-227).  It builds the dict `d` with the SNR, model
name, sentence number, full prediction and material name; spreads a dict
`params` into one column per entry, otherwise stores `params` in the
single `'Distortion params'` column; then appends one row per entry of
`res['p']`, adding that entry's `'Output'` name and `'Value'`.  The
`kwargs` parameter is accepted but NEVER written into `d` — exactly as in
the source, whose body does not mention `kwargs` — so keyword arguments
such as `SRT=...` and `Reversals=...` are dropped. -/
def appendResults (df : List ResultRow) (res : ModelRes) (modelName : String)
    (snr : ℚ) (iTarget : Nat) (params : Params) (materialName : String)
    (kwargs : List (String × PVal)) : List ResultRow :=
  let d : ResultRow :=
    [("SNR", PVal.num snr),
     ("Model", PVal.str modelName),
     ("Sentence number", PVal.natVal iTarget),
     ("Full Prediction", PVal.fullPred res.p),
     ("Material", PVal.str materialName)]
  let d : ResultRow :=
    match params with
    | Params.dict kvs => d ++ kvs.map fun kv => (kv.fst, PVal.num kv.snd)
    | p => d ++ [("Distortion params", PVal.par p)]
  df ++ res.p.map fun nv =>
    d ++ [("Output", PVal.str nv.fst), ("Value", PVal.num nv.snd)]

/-! ## `AdaptiveExperiment.run`: the per-condition loop -/

/-- The attributes of an `AdaptiveExperiment` instance that `run` can
reach, including `change_step_on`, which `__init__` stores (line 719).
`preprocess` stands for the bound method `self.preprocessing` (levels and
distortion applied per the experiment's configuration), `ssn` for
`self.next_masker`/`material.ssn`, and each model is a name paired with
its `predict` method.  `pred_keys_and_thresholds` pairs a model-output
name with its threshold, zipped against `models` as in line 732. -/
structure AECfg (σ : Type) where
  preprocess : σ → σ → ℚ → Params → σ × σ × σ
  ssn : σ → σ
  models : List (String × (σ → σ → σ → ModelRes))
  predKeysAndThresholds : List (String × ℚ)
  targets : List σ
  distParams : List Params
  materialName : String
  startSnr : ℚ
  stepSizes : List ℚ
  nTestReversals : Nat
  changeStepOn : Int

/-- The body of `AdaptiveExperiment.run` for one condition (lines
736-800): draw the masker from the ORIGINAL target, run the staircase to
exhaustion of its reversal budget, compute
`srt = np.mean([each[0] for each in all_res[-n_test_reversals:]])`, and
append the results — passing `SRT=srt` and `Reversals=total_reversals` as
keyword arguments, with the final `snr` and the last `res` of the loop. -/
def adaptiveCond {σ : Type} (fuel : Nat) (cfg : AECfg σ) (iTarget : Nat)
    (target : σ) (params : Params) (modelName : String)
    (predict : σ → σ → σ → ModelRes) (predKey : String) (threshold : ℚ)
    (df : List ResultRow) : Option (List ResultRow) :=
  let masker := cfg.ssn target
  match scRun fuel (fun t m snr => cfg.preprocess t m snr params) predict
      predKey threshold cfg.stepSizes cfg.nTestReversals
      (scInit target masker cfg.startSnr) with
  | none => none
  | some s =>
    let srt := scSrt cfg.nTestReversals s
    some (appendResults df s.lastRes modelName s.snr iTarget params
      cfg.materialName
      [("SRT", PVal.num srt), ("Reversals", PVal.natVal s.totalReversals)])

/-- The condition cross product of `AdaptiveExperiment.run` (lines
728-735): `product(enumerate(targets), dist_params, zip(models,
pred_keys_and_thresholds))`, rightmost factor varying fastest. -/
def condList {σ : Type} (cfg : AECfg σ) :
    List ((Nat × σ) × Params ×
      ((String × (σ → σ → σ → ModelRes)) × (String × ℚ))) :=
  (cfg.targets.enum).flatMap fun it =>
    cfg.distParams.flatMap fun p =>
      (cfg.models.zip cfg.predKeysAndThresholds).map fun mk => (it, p, mk)

/-- `AdaptiveExperiment.run` (lines 722-801): fold the per-condition
staircase over the condition cross product, accumulating the DataFrame
(`none` when some staircase does not exit within `fuel` iterations). -/
def adaptiveRun {σ : Type} (fuel : Nat) (cfg : AECfg σ) :
    Option (List ResultRow) :=
  (condList cfg).foldl
    (fun acc c =>
      acc.bind fun df =>
        adaptiveCond fuel cfg c.fst.fst c.fst.snd c.snd.fst c.snd.snd.fst.fst
          c.snd.snd.fst.snd c.snd.snd.snd.fst c.snd.snd.snd.snd df)
    (some [])

/-! ## Helper lemmas about one staircase iteration and the loop -/

/-- Facts true of every staircase iteration, read off the branches of
`scStep`: the history always grows by exactly the pair
`(pre-update SNR, prediction)`, `total_reversals` always grows by one, and
`test_reversals` grows by at most one. -/
theorem scStep_basic {σ : Type} (pre : σ → σ → ℚ → σ × σ × σ)
    (predict : σ → σ → σ → ModelRes) (predKey : String) (threshold : ℚ)
    (stepSizes : List ℚ) (s : SCState σ) :
    (scStep pre predict predKey threshold stepSizes s).allRes
        = s.allRes ++ [(s.snr, scPred pre predict predKey s)]
      ∧ (scStep pre predict predKey threshold stepSizes s).totalReversals
        = s.totalReversals + 1
      ∧ (scStep pre predict predKey threshold stepSizes s).testReversals
        ≤ s.testReversals + 1 := by
  unfold scStep scPred
  rcases hp : pre s.target s.masker s.snr with ⟨t, mix, m⟩
  dsimp only
  split_ifs <;> refine ⟨rfl, rfl, ?_⟩ <;> simp only [] <;> omega

/-- If the staircase loop is entered with a `test_reversals` budget not yet
exceeding `n_test_reversals + 1` and exits normally, it exits with
`test_reversals = n_test_reversals + 1`: the guard runs the body while
`test_reversals <= n_test_reversals`, and each body run adds at most 1. -/
theorem scRun_exit_testReversals {σ : Type} (pre : σ → σ → ℚ → σ × σ × σ)
    (predict : σ → σ → σ → ModelRes) (predKey : String) (threshold : ℚ)
    (stepSizes : List ℚ) (nTest : Nat) :
    ∀ (fuel : Nat) (s sF : SCState σ), s.testReversals ≤ nTest + 1 →
      scRun fuel pre predict predKey threshold stepSizes nTest s = some sF →
      sF.testReversals = nTest + 1 := by
  intro fuel
  induction fuel with
  | zero => intro s sF _ h; simp [scRun] at h
  | succ f ih =>
    intro s sF hle h
    rw [scRun] at h
    by_cases hg : s.testReversals ≤ nTest
    · rw [if_pos hg] at h
      refine ih _ _ ?_ h
      have := (scStep_basic pre predict predKey threshold stepSizes s).2.2
      omega
    · rw [if_neg hg] at h
      cases h
      omega

/-- Each loop iteration appends exactly one history entry, so
`test_reversals <= len(all_res)` is a loop invariant. -/
theorem scRun_testReversals_le_length {σ : Type} (pre : σ → σ → ℚ → σ × σ × σ)
    (predict : σ → σ → σ → ModelRes) (predKey : String) (threshold : ℚ)
    (stepSizes : List ℚ) (nTest : Nat) :
    ∀ (fuel : Nat) (s sF : SCState σ), s.testReversals ≤ s.allRes.length →
      scRun fuel pre predict predKey threshold stepSizes nTest s = some sF →
      sF.testReversals ≤ sF.allRes.length := by
  intro fuel
  induction fuel with
  | zero => intro s sF _ h; simp [scRun] at h
  | succ f ih =>
    intro s sF hle h
    rw [scRun] at h
    by_cases hg : s.testReversals ≤ nTest
    · rw [if_pos hg] at h
      refine ih _ _ ?_ h
      have h1 := (scStep_basic pre predict predKey threshold stepSizes s).1
      have h2 := (scStep_basic pre predict predKey threshold stepSizes s).2.2
      have : (scStep pre predict predKey threshold stepSizes s).allRes.length
          = s.allRes.length + 1 := by rw [h1]; simp
      omega
    · rw [if_neg hg] at h
      cases h
      exact hle

/-! ## Claims C2-C5: the staircase bookkeeping -/

/-- C2 (counterexample): an iteration in which the direction does NOT flip
(`last_reversal_sign` is `-1` and the prediction `0` meets the threshold
`-10`, so the walk keeps descending) still increments `total_reversals`
from `0` to `1`, refuting "the total-reversal count is incremented ...
never on iterations where the direction is unchanged". -/
theorem scStep_totalReversals_counterexample :
    (scStep (fun t m snr => (t, snr, m))
        (fun _ mix _ => (⟨[("k", mix)]⟩ : ModelRes)) "k" (-10) [4, 2, 1]
        ⟨0, 0, 0, -1, 0, [], (1 : ℚ), 1, ⟨[]⟩⟩).lastReversalSign = -1
      ∧ ¬ ((scStep (fun t m snr => (t, snr, m))
        (fun _ mix _ => (⟨[("k", mix)]⟩ : ModelRes)) "k" (-10) [4, 2, 1]
        ⟨0, 0, 0, -1, 0, [], (1 : ℚ), 1, ⟨[]⟩⟩).totalReversals = 0) := by
  decide

/-- C2 (amended): every staircase iteration appends the pair
`(current SNR, prediction)` to the history, and increments
`total_reversals` by one UNCONDITIONALLY — on every iteration, whether or
not the movement direction flips (`total_reversals += 1` sits at the
bottom of the loop body, outside all conditionals). -/
theorem scStep_history_and_totalReversals {σ : Type}
    (pre : σ → σ → ℚ → σ × σ × σ) (predict : σ → σ → σ → ModelRes)
    (predKey : String) (threshold : ℚ) (stepSizes : List ℚ) (s : SCState σ) :
    (scStep pre predict predKey threshold stepSizes s).allRes
        = s.allRes ++ [(s.snr, scPred pre predict predKey s)]
      ∧ (scStep pre predict predKey threshold stepSizes s).totalReversals
        = s.totalReversals + 1 := by
  exact ⟨(scStep_basic pre predict predKey threshold stepSizes s).1,
    (scStep_basic pre predict predKey threshold stepSizes s).2.1⟩

/-- C3 (counterexample): an upward direction flip (previous move was a
decrease — `last_reversal_sign = -1` — and the prediction `0` is below the
threshold `10`) does NOT advance the step index: with
`step_sizes = [4, 2, 1]` and `i_step = 0` the flip happens (the sign
becomes `1`) yet `i_step` stays `0` instead of advancing to
`min(0 + 1, 2) = 1` as the claimed symmetric handling would require. -/
theorem scStep_upflip_counterexample :
    (scStep (fun t m snr => (t, snr, m))
        (fun _ mix _ => (⟨[("k", mix)]⟩ : ModelRes)) "k" 10 [4, 2, 1]
        ⟨0, 0, 0, -1, 0, [], (1 : ℚ), 1, ⟨[]⟩⟩).lastReversalSign = 1
      ∧ ¬ ((scStep (fun t m snr => (t, snr, m))
        (fun _ mix _ => (⟨[("k", mix)]⟩ : ModelRes)) "k" 10 [4, 2, 1]
        ⟨0, 0, 0, -1, 0, [], (1 : ℚ), 1, ⟨[]⟩⟩).iStep
          = min (0 + 1) ([(4 : ℚ), 2, 1].length - 1)) := by
  decide

/-- C3 (amended): the two flip directions are handled ASYMMETRICALLY.  On
an upward flip (prediction below threshold after a descending move) the
sign flips to `+1` and a test reversal is counted when `i_step` is already
at the final step size, but `i_step` itself never advances; only a
downward flip (prediction at or above threshold after an ascending move)
advances `i_step` to `min(i_step + 1, len(step_sizes) - 1)`. -/
theorem scStep_flip_asymmetry {σ : Type} (pre : σ → σ → ℚ → σ × σ × σ)
    (predict : σ → σ → σ → ModelRes) (predKey : String) (threshold : ℚ)
    (stepSizes : List ℚ) (s : SCState σ) :
    (scPred pre predict predKey s < threshold → s.lastReversalSign < 0 →
        (scStep pre predict predKey threshold stepSizes s).iStep = s.iStep
          ∧ (scStep pre predict predKey threshold stepSizes s).lastReversalSign = 1
          ∧ (scStep pre predict predKey threshold stepSizes s).testReversals
            = (if s.iStep = stepSizes.length - 1 then s.testReversals + 1
               else s.testReversals)
          ∧ (scStep pre predict predKey threshold stepSizes s).snr
            = s.snr + stepSizes.getD s.iStep 0)
      ∧ (threshold ≤ scPred pre predict predKey s → 0 < s.lastReversalSign →
        (scStep pre predict predKey threshold stepSizes s).iStep
            = min (s.iStep + 1) (stepSizes.length - 1)
          ∧ (scStep pre predict predKey threshold stepSizes s).lastReversalSign = -1
          ∧ (scStep pre predict predKey threshold stepSizes s).snr
            = s.snr - stepSizes.getD s.iStep 0) := by
  unfold scStep scPred
  rcases hp : pre s.target s.masker s.snr with ⟨t, mix, m⟩
  dsimp only
  constructor
  · intro hpred hsign
    rw [if_neg (not_le.mpr hpred), if_pos hsign]
    refine ⟨rfl, rfl, ?_, rfl⟩
    split <;> simp
  · intro hpred hsign
    rw [if_pos hpred, if_pos hsign]
    refine ⟨rfl, rfl, rfl⟩

/-- C3 (witness): the amended asymmetry at a concrete upward flip: sign
`-1`, prediction `0` below threshold `10`, `i_step = 0` with schedule
`[4, 2, 1]` — the sign flips, no test reversal is counted (the step index
is not final), the SNR rises by `4`, and `i_step` stays `0`. -/
theorem scStep_flip_asymmetry_witness :
    (scStep (fun t m snr => (t, snr, m))
        (fun _ mix _ => (⟨[("k", mix)]⟩ : ModelRes)) "k" 10 [4, 2, 1]
        ⟨0, 0, 0, -1, 0, [], (5 : ℚ), 1, ⟨[]⟩⟩).iStep = 0
      ∧ (scStep (fun t m snr => (t, snr, m))
        (fun _ mix _ => (⟨[("k", mix)]⟩ : ModelRes)) "k" 10 [4, 2, 1]
        ⟨0, 0, 0, -1, 0, [], (5 : ℚ), 1, ⟨[]⟩⟩).snr = 0 + 4 := by
  have h := (scStep_flip_asymmetry (fun t m snr => (t, snr, m))
    (fun _ mix _ => (⟨[("k", mix)]⟩ : ModelRes)) "k" 10 [4, 2, 1]
    ⟨0, 0, 0, -1, 0, [], (5 : ℚ), 1, ⟨[]⟩⟩).1 (by decide) (by decide)
  exact ⟨h.1, by rw [h.2.2.2]; norm_num⟩

/-- C4 (confirmed): whenever the staircase loop of
`AdaptiveExperiment.run`, started from the initial state (where
`test_reversals = 0`), exits normally, the exit value of `test_reversals`
is exactly `n_test_reversals + 1`: the guard keeps the loop running while
the count is at most `n_test_reversals`, and the count grows by at most
one per iteration, so the first value past the guard is one more than
requested. -/
theorem scRun_exits_at_nTest_plus_one {σ : Type} (fuel : Nat)
    (pre : σ → σ → ℚ → σ × σ × σ) (predict : σ → σ → σ → ModelRes)
    (predKey : String) (threshold : ℚ) (stepSizes : List ℚ) (nTest : Nat)
    (target masker : σ) (startSnr : ℚ) (sF : SCState σ)
    (h : scRun fuel pre predict predKey threshold stepSizes nTest
        (scInit target masker startSnr) = some sF) :
    sF.testReversals = nTest + 1 :=
  scRun_exit_testReversals pre predict predKey threshold stepSizes nTest
    fuel _ sF (by simp [scInit]) h

/-- C4 (witness): a concrete terminating run — the model output equals the
mixture, the preprocessor routes the current SNR into the mixture slot,
threshold `0`, schedule `[1]`, `n_test_reversals = 1` — exits after three
iterations with `test_reversals = 2 = 1 + 1`. -/
theorem scRun_exits_at_nTest_plus_one_witness :
    scRun 8 (fun t m snr => (t, snr, m))
        (fun _ mix _ => (⟨[("k", mix)]⟩ : ModelRes)) "k" 0 [1] 1
        (scInit (1 : ℚ) 1 0)
      = some ⟨2, 3, -1, -1, 0, [(0, 0), (-1, -1), (0, 0)], 1, 1, ⟨[("k", 0)]⟩⟩
      ∧ (⟨2, 3, -1, -1, 0, [(0, 0), (-1, -1), (0, 0)], 1, 1,
          ⟨[("k", 0)]⟩⟩ : SCState ℚ).testReversals = 1 + 1 := by
  have h : scRun 8 (fun t m snr => (t, snr, m))
      (fun _ mix _ => (⟨[("k", mix)]⟩ : ModelRes)) "k" 0 [1] 1
      (scInit (1 : ℚ) 1 0)
      = some ⟨2, 3, -1, -1, 0, [(0, 0), (-1, -1), (0, 0)], 1, 1,
          ⟨[("k", 0)]⟩⟩ := by
    with_unfolding_all decide
  exact ⟨h, scRun_exits_at_nTest_plus_one 8 _ _ "k" 0 [1] 1 1 1 0 _ h⟩

/-- C5 (counterexample): with `n_test_reversals = 0` the Python slice
`all_res[-0:]` is the WHOLE history, so the code averages every logged
SNR, not "the last `n_test_reversals` entries" (which would be an empty
average).  Concretely, a run terminating with history
`[(0, 0), (-1, -1)]` reports `srt = (0 + (-1)) / 2 = -1/2`, while the mean
over the last zero entries is the empty mean. -/
theorem scSrt_zero_counterexample :
    scRun 8 (fun t m snr => (t, snr, m))
        (fun _ mix _ => (⟨[("k", mix)]⟩ : ModelRes)) "k" 0 [1] 0
        (scInit (1 : ℚ) 1 0)
      = some ⟨1, 2, 0, 1, 0, [(0, 0), (-1, -1)], 1, 1, ⟨[("k", -1)]⟩⟩
      ∧ scSrt 0 (⟨1, 2, 0, 1, 0, [(0, 0), (-1, -1)], 1, 1,
          ⟨[("k", -1)]⟩⟩ : SCState ℚ) = -1/2
      ∧ ¬ (scSrt 0 (⟨1, 2, 0, 1, 0, [(0, 0), (-1, -1)], 1, 1,
          ⟨[("k", -1)]⟩⟩ : SCState ℚ)
        = listMean ((lastN 0 ([(0, 0), (-1, -1)] : List (ℚ × ℚ))).map
            Prod.fst)) := by
  refine ⟨by with_unfolding_all decide, ?_, ?_⟩
  · with_unfolding_all decide
  · with_unfolding_all decide

/-- C5 (amended): for every normally-terminating staircase run the history
holds at least `n_test_reversals + 1` entries, and for
`n_test_reversals >= 1` the reported SRT is the arithmetic mean of the SNR
components of exactly the last `n_test_reversals` history entries; for
`n_test_reversals = 0`, the `[-0:]` slice makes the code average the
ENTIRE history instead. -/
theorem scSrt_is_mean_of_last_entries {σ : Type} (fuel : Nat)
    (pre : σ → σ → ℚ → σ × σ × σ) (predict : σ → σ → σ → ModelRes)
    (predKey : String) (threshold : ℚ) (stepSizes : List ℚ) (nTest : Nat)
    (target masker : σ) (startSnr : ℚ) (sF : SCState σ)
    (h : scRun fuel pre predict predKey threshold stepSizes nTest
        (scInit target masker startSnr) = some sF) :
    nTest + 1 ≤ sF.allRes.length
      ∧ (1 ≤ nTest →
          scSrt nTest sF = listMean ((lastN nTest sF.allRes).map Prod.fst)
            ∧ (lastN nTest sF.allRes).length = nTest)
      ∧ (nTest = 0 → scSrt nTest sF = listMean (sF.allRes.map Prod.fst)) := by
  have hexit : sF.testReversals = nTest + 1 :=
    scRun_exit_testReversals pre predict predKey threshold stepSizes nTest
      fuel _ sF (by simp [scInit]) h
  have hlen : sF.testReversals ≤ sF.allRes.length :=
    scRun_testReversals_le_length pre predict predKey threshold stepSizes
      nTest fuel _ sF (by simp [scInit]) h
  refine ⟨by omega, fun h1 => ⟨?_, ?_⟩, fun h0 => ?_⟩
  · unfold scSrt pyTailSlice lastN
    rw [if_neg (by omega)]
  · unfold lastN
    rw [List.length_drop]
    omega
  · unfold scSrt pyTailSlice
    rw [if_pos h0]

/-- C5 (witness): in the concrete terminating run of the C4 witness
(history `[(0, 0), (-1, -1), (0, 0)]`, `n_test_reversals = 1`) the
reported SRT is the mean of the SNRs of exactly the last one entry. -/
theorem scSrt_is_mean_of_last_entries_witness :
    scSrt 1 (⟨2, 3, -1, -1, 0, [(0, 0), (-1, -1), (0, 0)], 1, 1,
        ⟨[("k", 0)]⟩⟩ : SCState ℚ)
      = listMean ((lastN 1 ([(0, 0), (-1, -1), (0, 0)] : List (ℚ × ℚ))).map
          Prod.fst)
      ∧ (lastN 1 ([(0, 0), (-1, -1), (0, 0)] : List (ℚ × ℚ))).length = 1 := by
  have h : scRun 8 (fun t m snr => (t, snr, m))
      (fun _ mix _ => (⟨[("k", mix)]⟩ : ModelRes)) "k" 0 [1] 1
      (scInit (1 : ℚ) 1 0)
      = some ⟨2, 3, -1, -1, 0, [(0, 0), (-1, -1), (0, 0)], 1, 1,
          ⟨[("k", 0)]⟩⟩ := by
    with_unfolding_all decide
  exact (scSrt_is_mean_of_last_entries 8 _ _ "k" 0 [1] 1 1 1 0 _ h).2.1
    (by omega)

/-! ## Claims C1, C6, C10: the run loop and result rows -/

/-- A small concrete adaptive experiment over `σ = ℚ`: one target, one
(absent) distortion parameter, one model whose output equals the mixture,
into which the preprocessor routes the current SNR; threshold `0`,
starting SNR `0`, schedule `[1]`, `n_test_reversals = 1`.  Its staircase
terminates after three iterations. -/
def exCfg : AECfg ℚ :=
  ⟨fun t m snr _ => (t, snr, m), id,
   [("M", fun _ mix _ => ⟨[("k", mix)]⟩)],
   [("k", 0)], [1], [Params.noParams], "Mat", 0, [1], 1, -1⟩

/-- C1 (code bug): the adaptive run completes and appends exactly one
Result Row for its single condition, but that row carries NEITHER an
`'SRT'` column NOR a `'Reversals'` column: `AdaptiveExperiment.run` passes
`SRT=srt` and `Reversals=total_reversals` as keyword arguments
(lines 791-800), yet `append_results` never writes its `**kwargs` into the
row dict `d` (lines 194-227), so both values are silently dropped. -/
theorem adaptiveRun_rows_lack_srt_and_reversals :
    (adaptiveRun 8 exCfg).isSome = true
      ∧ ((adaptiveRun 8 exCfg).getD []).length = 1
      ∧ ((adaptiveRun 8 exCfg).getD []).all
          (fun r => !(rowHasKey r "SRT") && !(rowHasKey r "Reversals"))
        = true := by
  refine ⟨?_, ?_, ?_⟩ <;> with_unfolding_all decide

/-- C6 (code bug): the staircase feeds each iteration's PREPROCESSED
signals into the next iteration.  With a preprocessing that doubles the
target (standing for a level- or distortion-altering step), the state's
`target` after one iteration is already `2`, not the original `1`, and
after the three iterations of a terminating run the target has been
re-preprocessed into `8 = 2^3` — the distortion is applied cumulatively,
instead of each iteration starting from the condition's original
signals. -/
theorem scRun_reuses_preprocessed_signals :
    (scStep (fun t m snr => (t * 2, snr, m))
        (fun _ mix _ => (⟨[("k", mix)]⟩ : ModelRes)) "k" 0 [1]
        (scInit (1 : ℚ) 1 0)).target = 2
      ∧ (scInit (1 : ℚ) 1 0).target = 1
      ∧ (scRun 8 (fun t m snr => (t * 2, snr, m))
          (fun _ mix _ => (⟨[("k", mix)]⟩ : ModelRes)) "k" 0 [1] 1
          (scInit (1 : ℚ) 1 0)).map SCState.target = some 8 := by
  refine ⟨?_, ?_, ?_⟩ <;> with_unfolding_all decide

/-- C10 (confirmed): `change_step_on` is dead configuration.  The
constructor stores it, but no step of `AdaptiveExperiment.run` reads it,
so two runs that differ only in `change_step_on` (`-1` versus `+1`)
produce identical results — same step-size changes, reversal counts,
termination and rows. -/
theorem adaptiveRun_ignores_changeStepOn {σ : Type} (cfg : AECfg σ)
    (fuel : Nat) :
    adaptiveRun fuel
        ⟨cfg.preprocess, cfg.ssn, cfg.models, cfg.predKeysAndThresholds,
         cfg.targets, cfg.distParams, cfg.materialName, cfg.startSnr,
         cfg.stepSizes, cfg.nTestReversals, -1⟩
      = adaptiveRun fuel
        ⟨cfg.preprocess, cfg.ssn, cfg.models, cfg.predKeysAndThresholds,
         cfg.targets, cfg.distParams, cfg.materialName, cfg.startSnr,
         cfg.stepSizes, cfg.nTestReversals, 1⟩ := rfl

/-! ## Claims C7, C8: the crossing extractor `int2srt` -/

/-- C7 (counterexample): with multiple crossings (`ys = [0, 60, 0, 60]`
crosses the target `50` at indices 0, 1 and 2), `int2srt` does NOT return
the first crossing: `if not idx` evaluates the truth value of a
three-element index array, which raises `ValueError`, so no value is
returned at all. -/
theorem int2srt_multiple_crossings_counterexample :
    int2srt [0, 1, 2, 3] [0, 60, 0, 60] 50
        = Except.error PyErr.valueErrorAmbiguous
      ∧ (crossIdx [0, 60, 0, 60] 50).length = 3 := by
  constructor <;> with_unfolding_all decide

/-- C7 (amended): when EXACTLY ONE crossing index exists (and the lengths
match), `int2srt` returns exactly one crossing value, computed by linear
interpolation at that index — except that at index `0` with `ys[0]` equal
to the target the scalar `xs[0]` is returned by the early-return branch
(numerically the same point).  Two or more crossing indices instead raise
`ValueError` from the ambiguous array truth test, as the counterexample
shows. -/
theorem int2srt_single_crossing (x y : List ℚ) (t : ℚ) (i : Nat)
    (hlen : x.length = y.length) (hidx : crossIdx y t = [i]) :
    int2srt x y t
      = Except.ok
          (if i = 0 ∧ y.getD 0 0 = t then SrtRet.scalar (x.getD 0 0)
           else SrtRet.arr [interp x y t i]) := by
  have hy : y ≠ [] := by
    intro hnil
    rw [hnil] at hidx
    simp [crossIdx] at hidx
  unfold int2srt
  rw [if_neg (fun hne => hne hlen), hidx]
  by_cases hi : i = 0
  · rcases y with _ | ⟨y0, ys⟩
    · exact absurd rfl hy
    · subst hi
      dsimp only
      by_cases h0 : y0 = t
      · rw [if_pos h0]
        simp [h0]
      · rw [if_neg h0]
        simp [h0]
  · dsimp only
    rw [if_neg hi]
    simp [hi]

/-- C7 (witness): the spec's concrete example — `xs = [0, 1, 2, 3]`,
`ys = [0, 40, 60, 80]`, target `50` — has its single crossing at index 1
and interpolates to `3/2`. -/
theorem int2srt_single_crossing_witness :
    int2srt [0, 1, 2, 3] [0, 40, 60, 80] 50 = Except.ok (SrtRet.arr [3/2]) := by
  have h := int2srt_single_crossing [0, 1, 2, 3] [0, 40, 60, 80] 50 1
    (by decide) (by with_unfolding_all decide)
  rw [h]
  with_unfolding_all decide

/-- Helper: for equal-length inputs `int2srt` never raises the
shape-mismatch `ValueError` — every later outcome is an `IndexError`, the
ambiguous-truth `ValueError`, or a returned value. -/
theorem int2srt_eqlen_ne_shape (x y : List ℚ) (t : ℚ)
    (hlen : x.length = y.length) :
    int2srt x y t ≠ Except.error PyErr.valueErrorShape := by
  unfold int2srt
  rw [if_neg (fun hne => hne hlen)]
  rcases hc : crossIdx y t with _ | ⟨i, _ | ⟨j, r⟩⟩
  · rcases y with _ | ⟨y0, ys⟩
    · simp
    · dsimp only
      split_ifs <;> simp
  · dsimp only
    split_ifs with hi
    · rcases y with _ | ⟨y0, ys⟩
      · simp
      · dsimp only
        split_ifs <;> simp
    · simp
  · simp

/-- C8 (counterexample): on the empty equal-length inputs there is no
index at which `ys - target` changes sign and `ys[0] == target` cannot
hold, so the claim predicts the undefined result (`None`); the code
instead raises `IndexError` when `if not idx and y[0] == srt` evaluates
`y[0]` on the empty array. -/
theorem int2srt_empty_counterexample :
    int2srt ([] : List ℚ) [] 50 = Except.error PyErr.indexError
      ∧ ¬ (int2srt ([] : List ℚ) [] 50 = Except.ok SrtRet.noCrossing) := by
  constructor <;> with_unfolding_all decide

/-- C8 (amended): `int2srt` raises the shape-mismatch `ValueError` exactly
when the input lengths differ; for equal-length NONEMPTY inputs without a
sign change of `ys - target` it returns `xs[0]` when `ys[0]` equals the
target and `None` otherwise; on empty inputs it raises `IndexError`
instead (shown by the counterexample). -/
theorem int2srt_shape_and_no_crossing (x y : List ℚ) (t : ℚ) :
    (int2srt x y t = Except.error PyErr.valueErrorShape
        ↔ x.length ≠ y.length)
      ∧ (x.length = y.length → crossIdx y t = [] → y ≠ [] →
          int2srt x y t
            = Except.ok
                (if y.getD 0 0 = t then SrtRet.scalar (x.getD 0 0)
                 else SrtRet.noCrossing)) := by
  constructor
  · constructor
    · intro h
      by_contra hl
      exact int2srt_eqlen_ne_shape x y t hl h
    · intro hne
      unfold int2srt
      rw [if_pos hne]
  · intro hlen hc hy
    unfold int2srt
    rw [if_neg (fun hne => hne hlen), hc]
    rcases y with _ | ⟨y0, ys⟩
    · exact absurd rfl hy
    · dsimp only
      simp only [List.getD_cons_zero]
      split_ifs <;> rfl

/-- C8 (witness): concrete instances of both conjuncts — a length
mismatch raises the shape error, and equal-length inputs lying entirely
below the target return `None`. -/
theorem int2srt_shape_and_no_crossing_witness :
    int2srt [1, 2] [3, 4, 5] 50 = Except.error PyErr.valueErrorShape
      ∧ int2srt [1, 2] [3, 3] 50 = Except.ok SrtRet.noCrossing := by
  constructor
  · exact (int2srt_shape_and_no_crossing [1, 2] [3, 4, 5] 50).1.mpr
      (by decide)
  · have h := (int2srt_shape_and_no_crossing [1, 2] [3, 3] 50).2
      (by decide) (by with_unfolding_all decide) (by decide)
    rw [h]
    with_unfolding_all decide

/-! ## Claim C9: level-setting on silence -/

/-- Helper: a list of rationals whose squares sum to zero is all zeros. -/
theorem sum_of_squares_eq_zero {l : List ℚ}
    (h : (l.map fun v => v * v).sum = 0) : ∀ v ∈ l, v = 0 := by
  induction l with
  | nil => simp
  | cons a l ih =>
    simp only [List.map_cons, List.sum_cons] at h
    have hs : 0 ≤ (l.map fun v => v * v).sum := by
      apply List.sum_nonneg
      intro q hq
      obtain ⟨v, _, rfl⟩ := List.mem_map.mp hq
      exact mul_self_nonneg v
    have ha : a * a = 0 := le_antisymm (by linarith [mul_self_nonneg a])
      (mul_self_nonneg a)
    intro v hv
    rcases List.mem_cons.mp hv with rfl | hv
    · exact mul_self_eq_zero.mp ha
    · exact ih (by linarith [mul_self_nonneg a]) v hv

/-- Helper: a signal with zero (squared) RMS is silence — every sample is
zero. -/
theorem rmsSq_eq_zero_all_zero {x : List ℚ} (h : rmsSq x = 0) :
    ∀ v ∈ x, v = 0 := by
  rcases x with _ | ⟨a, l⟩
  · simp
  · apply sum_of_squares_eq_zero
    unfold rmsSq at h
    rcases div_eq_zero_iff.mp h with h1 | h1
    · exact h1
    · exfalso
      simp only [List.length_cons, Nat.cast_add, Nat.cast_one] at h1
      have hnn : (0 : ℚ) ≤ (l.length : ℚ) := Nat.cast_nonneg _
      linarith

/-- C9 (counterexample): on the all-zeros signal (whose RMS is zero)
`setdbspl` does NOT fail with a domain error — numpy's division by zero
only warns — and instead returns an array of NaN values. -/
theorem setdbspl_silence_counterexample :
    setdbspl [0, 0] 65 = Except.ok [NpVal.nan, NpVal.nan] := by
  with_unfolding_all decide

/-- C9 (amended): `setdbspl` never raises: it always returns an array of
the input's length.  On a zero-RMS (silent) signal every returned sample
is the non-finite NaN (`0/0`); on a signal with nonzero RMS every sample
is the finite scaled value. -/
theorem setdbspl_never_raises (x : List ℚ) (lvl : ℚ) :
    (setdbspl x lvl
        = Except.ok (x.map fun xi =>
            if rmsSq x = 0 then (if xi = 0 then NpVal.nan else NpVal.inf)
            else NpVal.finite xi (rmsSq x) lvl))
      ∧ (rmsSq x = 0 → setdbspl x lvl = Except.ok (x.map fun _ => NpVal.nan))
      ∧ (rmsSq x ≠ 0 →
          setdbspl x lvl
            = Except.ok (x.map fun xi => NpVal.finite xi (rmsSq x) lvl)) := by
  refine ⟨rfl, fun hz => ?_, fun hnz => ?_⟩
  · unfold setdbspl
    congr 1
    apply List.map_congr_left
    intro xi hxi
    rw [if_pos hz, if_pos (rmsSq_eq_zero_all_zero hz xi hxi)]
  · unfold setdbspl
    congr 1
    apply List.map_congr_left
    intro xi _
    rw [if_neg hnz]

/-- C9 (witness): the amended behaviour at concrete inputs — the silent
signal `[0]` comes back as `[NaN]`, and `[3, 4]` (squared RMS `25/2`)
comes back finite and scaled. -/
theorem setdbspl_never_raises_witness :
    setdbspl [0] 65 = Except.ok [NpVal.nan]
      ∧ setdbspl [3, 4] 65
        = Except.ok [NpVal.finite 3 (25/2) 65, NpVal.finite 4 (25/2) 65] := by
  constructor
  · exact (setdbspl_never_raises [0] 65).2.1 (by with_unfolding_all decide)
  · have h := (setdbspl_never_raises [3, 4] 65).2.2
      (by with_unfolding_all decide)
    rw [h]
    with_unfolding_all decide
